import Mathlib

/-!
Shallow embedding of the go-rest-api repository for specification checking.

The embedding covers:
* `db/db.go` — the generic document-persistence layer (`InsertDocument`,
  `DeleteDocument`, `EditDocument`) over a model of a Mongo collection as a
  list of (identifier, document-body) pairs with a fresh-identifier counter;
* `api/gameApi/game_api.go` — the `EditGame` handler;
* the JWT manager (`GenerateToken`, `ValidateToken`) and
  `api/authApi/auth_api.go` (`Logout`, the token blacklist);
* `utils/websockets/ws.go` — the connection registry, `HandleLogout`,
  `broadcastMessage`, and the first-message handshake of `HandleWS`.

Machine integers only appear as identifiers and counters, far below any
overflow boundary, so they are modelled as `Nat`.
-/

namespace GoRestApi

/-- A BSON-ish scalar value, as stored in document fields. -/
inductive Value where
  | str : String → Value
  | int : Int → Value
  | bool : Bool → Value
  | null : Value
deriving DecidableEq, Repr

/-- A document body: a finite field assignment (`bson.D` without `_id`). -/
abbrev Document := List (String × Value)

/-- One conjunct of a `bson.D` filter: either an `_id` equality or a
field equality. -/
inductive Cond where
  | idEq : Nat → Cond
  | fieldEq : String → Value → Cond
deriving DecidableEq, Repr

/-- A filter (`*bson.D`): a conjunction of equality conditions. -/
abbrev Filter := List Cond

/-- Whether a stored entry `(identifier, body)` satisfies one condition. -/
def matchesCond (e : Nat × Document) : Cond → Bool
  | .idEq n => e.1 == n
  | .fieldEq k v => e.2.any (fun kv => kv.1 == k && kv.2 == v)

/-- Whether a stored entry satisfies every condition of a filter. -/
def matchesFilter (f : Filter) (e : Nat × Document) : Bool :=
  f.all (matchesCond e)

/-- A named collection: stored entries plus the next fresh identifier
(modelling Mongo's ObjectID generation). -/
structure Collection where
  docs : List (Nat × Document)
  nextId : Nat
deriving DecidableEq, Repr

/-- The unconditional insert path of `Client.InsertDocument`
(`collection.InsertOne`): append the document under a fresh identifier. -/
def insertRaw (coll : Collection) (document : Document) :
    Collection × Option Nat × Nat :=
  ({ docs := coll.docs ++ [(coll.nextId, document)], nextId := coll.nextId + 1 },
   some coll.nextId, 201)

/-- `Client.InsertDocument` (db/db.go:77-113): when uniqueness conditions are
given, a `Find` pre-check runs first; if any existing document matches, the
call fails with 409 Conflict and no write happens. Otherwise `InsertOne`
runs and the fresh identifier is returned with 201 Created. -/
def InsertDocument (coll : Collection) (conditions : Option Filter)
    (document : Document) : Collection × Option Nat × Nat :=
  match conditions with
  | some f =>
    if coll.docs.any (matchesFilter f) then
      (coll, none, 409)
    else
      insertRaw coll document
  | none => insertRaw coll document

/-- `Client.DeleteDocument` (db/db.go:117-135): `DeleteOne` removes the first
matching document; a `DeletedCount` of zero is reported as a 400 error
("item not found"), otherwise 200. -/
def DeleteDocument (coll : Collection) (f : Filter) : Collection × Nat :=
  match coll.docs.find? (matchesFilter f) with
  | none => (coll, 400)
  | some _ =>
    ({ coll with docs := coll.docs.eraseP (matchesFilter f) }, 200)

/-- Replace the body of the first entry matching `f`, keeping its
identifier (the semantics of Mongo's `ReplaceOne` on a match). -/
def replaceFirst (f : Filter) (newDoc : Document) :
    List (Nat × Document) → List (Nat × Document)
  | [] => []
  | e :: rest =>
    if matchesFilter f e then (e.1, newDoc) :: rest
    else e :: replaceFirst f newDoc rest

/-- `Client.EditDocument` (db/db.go:139-157): `ReplaceOne` matches the first
document satisfying the filter and stores the supplied body verbatim under
the matched identifier. A `ModifiedCount` of zero — no match, or a match
whose body is already identical — is reported as a 400 error, else 200. -/
def EditDocument (coll : Collection) (f : Filter) (newDoc : Document) :
    Collection × Nat :=
  match coll.docs.find? (matchesFilter f) with
  | none => (coll, 400)
  | some e =>
    if e.2 == newDoc then (coll, 400)
    else ({ coll with docs := replaceFirst f newDoc coll.docs }, 200)

/-! ## Games (types and api/gameApi/game_api.go) -/

/-- The fields of `types.Game` that the persistence claims exercise
(identifier, a representative body field, timestamp, version). -/
structure Game where
  id : Nat
  title : String
  date : String
  version : Int
deriving DecidableEq, Repr

/-- The BSON body produced for a `Game` when it is sent to the store
(every field except `_id`, which Mongo keeps separately). -/
def gameToDoc (g : Game) : Document :=
  [("title", .str g.title), ("date", .str g.date), ("version", .int g.version)]

/-- `GamesHandler.EditGame` (api/gameApi/game_api.go:306-327): sends the
client-supplied game body to `EditDocument` with an `_id` filter; on failure
it responds with the error status; on success it bumps `Date` and `Version`
on the in-memory copy and returns that copy with status 200. -/
def EditGame (coll : Collection) (now : String) (g : Game) :
    Collection × Option Game × Nat :=
  let r := EditDocument coll [Cond.idEq g.id] (gameToDoc g)
  if r.2 == 200 then
    (r.1, some { g with date := now, version := g.version + 1 }, 200)
  else
    (r.1, none, r.2)

/-! ## JWT manager (utils/security jwt source) and auth handler
(api/authApi/auth_api.go) -/

/-- The claims embedded in a token: `{"username": ..., "exp": ...}`. -/
structure TokenClaims where
  username : String
  exp : Nat
deriving DecidableEq, Repr

/-- A signed token string, abstracted to its parsed content: the claims and
the key that produced the HMAC signature (two tokens are the same raw string
iff they agree on both). -/
structure SignedToken where
  claims : TokenClaims
  sig : Nat
deriving DecidableEq, Repr

/-- `JWTManager`: server-held secret plus the fixed TTL. -/
structure JWTManager where
  secretKey : Nat
  expiry : Nat
deriving Repr

/-- `JWTManager.GenerateToken`: claims `{username, exp := now + expiry}`
signed with the manager's secret. -/
def GenerateToken (m : JWTManager) (now : Nat) (username : String) :
    SignedToken :=
  { claims := { username := username, exp := now + m.expiry }, sig := m.secretKey }

/-- `JWTManager.ValidateToken` (unnamed jwt source, lines 31-47): `jwt.Parse`
verifies the HMAC against the manager's secret and the registered `exp`
claim against the current time; on success the embedded username is
returned. No other check is performed. -/
def ValidateToken (m : JWTManager) (now : Nat) (t : SignedToken) :
    Option String :=
  if t.sig == m.secretKey && now < t.claims.exp then
    some t.claims.username
  else
    none

/-- `AuthHandler`: the JWT manager plus the token blacklist written by
`Logout` (`map[string]time.Time`, modelled as an association list from raw
token to revocation time). -/
structure AuthHandler where
  jwtManager : JWTManager
  tokenBlacklist : List (SignedToken × Nat)
deriving Repr

/-- `AuthHandler.Logout` (api/authApi/auth_api.go:97-112), after the bearer
token has been extracted from the header: record the raw token in
`tokenBlacklist` with the current time and respond 200. -/
def Logout (h : AuthHandler) (now : Nat) (token : SignedToken) : AuthHandler :=
  { h with tokenBlacklist := (token, now) :: h.tokenBlacklist }

/-- Token validation as performed on behalf of the handler (middleware.go,
`AuthHandler.ValidateToken`, and the websocket handshake all call
`jwtManager.ValidateToken` and nothing else). -/
def authValidateToken (h : AuthHandler) (now : Nat) (t : SignedToken) :
    Option String :=
  ValidateToken h.jwtManager now t

/-! ## Websocket registry (utils/websockets/ws.go) -/

/-- The real-time message envelope `types.MessageData`; `Payload` is
`interface{}` in Go, i.e. an arbitrary decoded JSON value. -/
structure MessageData where
  type : String
  payload : Value
  sender : String
deriving DecidableEq, Repr

/-- The two registry maps of `WSConfig`: `connections` (connection handle →
username) and `cancelFuncs` (handles owning a cancellable background task).
Connection handles are modelled as naturals; both Go maps have unique
keys. -/
structure Registry where
  connections : List (Nat × String)
  cancelFuncs : List Nat
deriving DecidableEq, Repr

/-- The freshly constructed registry of `NewWSConfig`. -/
def emptyRegistry : Registry := { connections := [], cancelFuncs := [] }

/-- The eviction block shared by every retirement path in ws.go: close the
socket, remove the connection from the `connections` map, and cancel and
remove its `cancelFuncs` entry — all inside one critical section. -/
def evictConn (reg : Registry) (c : Nat) : Registry :=
  { connections := reg.connections.eraseP (fun q => q.1 == c),
    cancelFuncs := reg.cancelFuncs.erase c }

/-- `WSConfig.HandleLogout` (ws.go:164-191): scan `connections` for the
first entry owned by `username`; send it a close notice, cancel and drop its
`cancelFuncs` entry, close it and drop its `connections` entry — then
`break` out of the loop. Returns the new registry and the list of
connections that were sent a close notice. -/
def HandleLogout (reg : Registry) (username : String) :
    Registry × List Nat :=
  match reg.connections.find? (fun p => p.2 == username) with
  | none => (reg, [])
  | some p => (evictConn reg p.1, [p.1])

/-- The loop body of `WSConfig.broadcastMessage` (ws.go:193-209), iterating
over a snapshot of the `connections` map while mutating the registry:
every connection gets a `WriteJSON` attempt carrying the message unchanged;
on write failure (given by the oracle `fails`) the connection is closed and
removed from both maps, its cancel handle being invoked as it is removed.
Returns the final registry and the attempted deliveries in order. -/
def broadcastLoop (msg : MessageData) (fails : Nat → Bool) :
    List (Nat × String) → Registry → Registry × List (Nat × MessageData)
  | [], reg => (reg, [])
  | p :: rest, reg =>
    if fails p.1 then
      let r := broadcastLoop msg fails rest (evictConn reg p.1)
      (r.1, (p.1, msg) :: r.2)
    else
      let r := broadcastLoop msg fails rest reg
      (r.1, (p.1, msg) :: r.2)

/-- `WSConfig.broadcastMessage`: run the loop over the current
`connections` entries. -/
def broadcastMessage (reg : Registry) (msg : MessageData)
    (fails : Nat → Bool) : Registry × List (Nat × MessageData) :=
  broadcastLoop msg fails reg.connections reg

/-- One iteration of the `Active`-state read loop of `WSConfig.HandleWS`
(ws.go:146-161) after a message has been read: a `logout` message triggers
`HandleLogout` for the session's username; any other message is passed to
`broadcastMessage` exactly as received. -/
def processMessage (reg : Registry) (username : String) (msg : MessageData)
    (fails : Nat → Bool) : Registry × List (Nat × MessageData) :=
  if msg.type == "logout" then
    ((HandleLogout reg username).1, [])
  else
    broadcastMessage reg msg fails

/-! ## The HandleWS handshake (ws.go:93-128) -/

/-- The first inbound event on a fresh connection: either `ReadJSON`
fails (disconnect or malformed frame) or a decoded message arrives. -/
inductive FirstInput where
  | readError : FirstInput
  | msg : MessageData → FirstInput
deriving DecidableEq, Repr

/-- How the handshake code can leave the connection. `closedWithNotice s`
is the normal error path: a best-effort error notice with payload `s` is
written and the handler returns (the deferred cleanup closes the socket).
`panicked` is a Go runtime panic — the handler did not terminate normally.
`active u` means the connection was admitted for username `u`. -/
inductive HandshakeOutcome where
  | closedWithNotice : String → HandshakeOutcome
  | panicked : HandshakeOutcome
  | active : String → HandshakeOutcome
deriving DecidableEq, Repr

/-- The first-message handshake of `WSConfig.HandleWS` (ws.go:93-128),
parameterised by the token validator (`auth.GetJWTManager().ValidateToken`):
a read error or a non-`authorization` first message sends an error notice
and returns; otherwise the code runs `authMessage.Payload.(string)` — an
unchecked type assertion that panics when the payload is not a string —
and then validates the token, admitting the connection on success. -/
def handleWSFirstMessage (validate : String → Option String) :
    FirstInput → HandshakeOutcome
  | .readError => .closedWithNotice "Invalid message format"
  | .msg m =>
    if m.type != "authorization" then
      .closedWithNotice "Invalid message type"
    else
      match m.payload with
      | .str token =>
        match validate token with
        | none => .closedWithNotice "Invalid token"
        | some username => .active username
      | _ => .panicked

/-! ## Registry admission as atomic critical sections (ws.go:132-144)

`HandleWS` admits a connection in two separate critical sections: it locks
the mutex, writes `connections[conn] = username`, unlocks, creates the
cancellable context, locks again, writes `cancelFuncs[conn] = cancel`, and
unlocks. Retirement paths (the deferred cleanup, `broadcastMessage`
eviction, `HandleLogout` per connection) remove a connection from both maps
inside one critical section. Readers acquire the same mutex, so the
observable states are exactly those between critical sections. -/

/-- One mutex-protected mutation of the registry maps. -/
inductive RegAction where
  | insertConn : Nat → String → RegAction
  | insertCancel : Nat → RegAction
  | retire : Nat → RegAction
deriving DecidableEq, Repr

/-- Go map insert on `connections`: overwrite the entry if the key is
present, otherwise add it. -/
def mapInsertConn (l : List (Nat × String)) (c : Nat) (id : String) :
    List (Nat × String) :=
  if l.any (fun p => p.1 == c) then
    l.map (fun p => if p.1 == c then (c, id) else p)
  else
    (c, id) :: l

/-- Go map insert on `cancelFuncs` (keys only). -/
def mapInsertCancel (l : List Nat) (c : Nat) : List Nat :=
  if l.any (fun x => x == c) then l else c :: l

/-- Apply one critical section to the registry. -/
def applyAction (reg : Registry) : RegAction → Registry
  | .insertConn c id => { reg with connections := mapInsertConn reg.connections c id }
  | .insertCancel c => { reg with cancelFuncs := mapInsertCancel reg.cancelFuncs c }
  | .retire c => evictConn reg c

/-- The admission sequence of `HandleWS` for connection `c` owned by `id`:
two critical sections, with the mutex released in between. -/
def admitSeq (c : Nat) (id : String) : List RegAction :=
  [.insertConn c id, .insertCancel c]

/-- All states a lock-holding reader can observe while a sequence of
critical sections runs: before, between, and after them. -/
def statesAfter (init : Registry) : List RegAction → List Registry
  | [] => [init]
  | a :: rest => init :: statesAfter (applyAction init a) rest

/-- The cross-map consistency predicate of the specification: every
registered connection has a cancel handle and every cancel handle belongs
to a registered connection. -/
def bothOrNeither (reg : Registry) : Bool :=
  reg.connections.all (fun p => reg.cancelFuncs.any (fun c => c == p.1)) &&
  reg.cancelFuncs.all (fun c => reg.connections.any (fun p => p.1 == c))

/-! ## Lookup helpers over the stored state -/

/-- The value of field `k` in a document body. -/
def docField (d : Document) (k : String) : Option Value :=
  (d.find? (fun kv => kv.1 == k)).map Prod.snd

/-- The stored body under identifier `id`, if any. -/
def storedBody (coll : Collection) (id : Nat) : Option Document :=
  (coll.docs.find? (fun e => e.1 == id)).map Prod.snd

/-! ## Concrete instances used by counterexamples and witnesses -/

def jwtManager0 : JWTManager := { secretKey := 7, expiry := 10 }

def authHandler0 : AuthHandler :=
  { jwtManager := jwtManager0, tokenBlacklist := [] }

/-- A token issued at time 0 for "alice": expires at time 10. -/
def aliceToken : SignedToken := GenerateToken jwtManager0 0 "alice"

/-- Two live connections both owned by "alice" (multi-device login). -/
def logoutReg0 : Registry :=
  { connections := [(1, "alice"), (2, "alice")], cancelFuncs := [1, 2] }

/-- A games collection holding one stored document with version 1. -/
def editColl0 : Collection :=
  { docs := [(1, gameToDoc { id := 1, title := "a", date := "d0", version := 1 })],
    nextId := 2 }

/-- The client's edit request: same version it read (1), new title. -/
def editGame0 : Game := { id := 1, title := "b", date := "dX", version := 1 }

/-- A registry with a single connection owned by "alice". -/
def senderReg0 : Registry := { connections := [(1, "alice")], cancelFuncs := [1] }

/-- An inbound chat message whose client-filled sender field claims to be
"mallory". -/
def spoofMsg0 : MessageData :=
  { type := "chat", payload := .str "hi", sender := "mallory" }

/-- A users collection with one stored user "bob". -/
def userColl0 : Collection :=
  { docs := [(0, [("username", .str "bob")])], nextId := 1 }

/-- Three registered connections with background tasks. -/
def bcastReg0 : Registry :=
  { connections := [(1, "a"), (2, "b"), (3, "c")], cancelFuncs := [1, 2, 3] }

/-! ## Helper lemmas about association-list manipulation -/

/-- Erasing by key from a list with pairwise-distinct keys is the same as
filtering the key out. -/
theorem eraseP_key_eq_filter {α : Type} (c : Nat) :
    ∀ (l : List (Nat × α)), (l.map Prod.fst).Nodup →
      l.eraseP (fun q => q.1 == c) = l.filter (fun q => q.1 != c)
  | [], _ => rfl
  | p :: rest, h => by
    rw [List.map_cons, List.nodup_cons] at h
    have hcons := h
    by_cases hc : p.1 = c
    · rw [List.eraseP_cons_of_pos (by simp [hc])]
      have hrest : rest.filter (fun q => q.1 != c) = rest := by
        apply List.filter_eq_self.mpr
        intro a ha
        have : a.1 ≠ c := fun hac => hcons.1 (hc ▸ hac ▸ List.mem_map_of_mem Prod.fst ha)
        simpa using this
      simp [hc, hrest]
    · rw [List.eraseP_cons_of_neg (by simpa using hc)]
      have := eraseP_key_eq_filter c rest hcons.2
      simp [hc, this]

/-- Removing the unique entry with key `c` drops exactly one entry
satisfying `pred` when the `c`-keyed entry satisfies `pred`. -/
theorem countP_eraseP_key (pred : Nat × String → Bool) :
    ∀ (l : List (Nat × String)) (c : Nat) (u : String),
      (l.map Prod.fst).Nodup → (c, u) ∈ l → pred (c, u) = true →
      (l.eraseP (fun q => q.1 == c)).countP pred + 1 = l.countP pred
  | [], _, _, _, hmem, _ => absurd hmem (List.not_mem_nil _)
  | p :: rest, c, u, hnd, hmem, hpred => by
    rw [List.map_cons, List.nodup_cons] at hnd
    have hcons := hnd
    by_cases hc : p.1 = c
    · have hp : p = (c, u) := by
        rcases List.mem_cons.mp hmem with hm | hm
        · exact hm.symm
        · exact absurd (hc ▸ List.mem_map_of_mem Prod.fst hm) hcons.1
      rw [List.eraseP_cons_of_pos (by simp [hc])]
      simp [List.countP_cons, hp, hpred]
    · have hm : (c, u) ∈ rest := by
        rcases List.mem_cons.mp hmem with hm | hm
        · exact absurd (congrArg Prod.fst hm.symm) hc
        · exact hm
      rw [List.eraseP_cons_of_neg (by simpa using hc)]
      have ih := countP_eraseP_key pred rest c u hcons.2 hm hpred
      simp only [List.countP_cons]
      omega

/-- After `replaceFirst`, the first entry whose key is `n` holds the new
body, provided the filter `[Cond.idEq n]` found a match. -/
theorem find?_replaceFirst_idEq (n : Nat) (nd : Document) :
    ∀ (l : List (Nat × Document)) (e : Nat × Document),
      l.find? (matchesFilter [Cond.idEq n]) = some e →
      (replaceFirst [Cond.idEq n] nd l).find? (fun q => q.1 == n) = some (e.1, nd)
  | [], e, h => by simp at h
  | p :: rest, e, h => by
    by_cases hc : p.1 = n
    · have hmatch : matchesFilter [Cond.idEq n] p = true := by
        simp [matchesFilter, matchesCond, hc]
      rw [List.find?_cons_of_pos _ hmatch] at h
      cases h
      show (replaceFirst [Cond.idEq n] nd (p :: rest)).find? (fun q => q.1 == n) =
        some (p.1, nd)
      rw [replaceFirst, if_pos hmatch]
      exact List.find?_cons_of_pos _ (by simp [hc])
    · have hmatch : matchesFilter [Cond.idEq n] p = false := by
        simp [matchesFilter, matchesCond, hc]
      rw [List.find?_cons_of_neg _ (by simp [hmatch])] at h
      have ih := find?_replaceFirst_idEq n nd rest e h
      show (replaceFirst [Cond.idEq n] nd (p :: rest)).find? (fun q => q.1 == n) =
        some (e.1, nd)
      rw [replaceFirst, if_neg (by simp [hmatch])]
      rw [List.find?_cons_of_neg _ (by simp [hc])]
      exact ih

/-! ## Helper lemmas about the broadcast loop -/

/-- Every connection in the iterated snapshot gets exactly one write
attempt, and the attempt carries the message unchanged. -/
theorem broadcastLoop_attempts (msg : MessageData) (fails : Nat → Bool) :
    ∀ (l : List (Nat × String)) (reg : Registry),
      (broadcastLoop msg fails l reg).2 = l.map (fun p => (p.1, msg))
  | [], _ => rfl
  | p :: rest, reg => by
    by_cases hf : fails p.1
    · simp [broadcastLoop, hf, broadcastLoop_attempts msg fails rest]
    · simp [broadcastLoop, hf, broadcastLoop_attempts msg fails rest]

/-- The `connections` map after the loop is a fold of by-key erasures over
the iterated snapshot. -/
theorem broadcastLoop_connections (msg : MessageData) (fails : Nat → Bool) :
    ∀ (l : List (Nat × String)) (reg : Registry),
      (broadcastLoop msg fails l reg).1.connections =
        l.foldl (fun cs p =>
          if fails p.1 then cs.eraseP (fun q => q.1 == p.1) else cs)
          reg.connections
  | [], _ => rfl
  | p :: rest, reg => by
    by_cases hf : fails p.1
    · simp [broadcastLoop, hf, broadcastLoop_connections msg fails rest, evictConn]
    · simp [broadcastLoop, hf, broadcastLoop_connections msg fails rest]

/-- The `cancelFuncs` map after the loop is a fold of erasures over the
iterated snapshot. -/
theorem broadcastLoop_cancelFuncs (msg : MessageData) (fails : Nat → Bool) :
    ∀ (l : List (Nat × String)) (reg : Registry),
      (broadcastLoop msg fails l reg).1.cancelFuncs =
        l.foldl (fun fs p => if fails p.1 then fs.erase p.1 else fs)
          reg.cancelFuncs
  | [], _ => rfl
  | p :: rest, reg => by
    by_cases hf : fails p.1
    · simp [broadcastLoop, hf, broadcastLoop_cancelFuncs msg fails rest, evictConn]
    · simp [broadcastLoop, hf, broadcastLoop_cancelFuncs msg fails rest]

/-- Folding by-key erasures over a snapshot none of whose keys is `c.1`
leaves a `c`-headed accumulator headed by `c`. -/
theorem foldl_eraseP_cons_skip (fails : Nat → Bool) (c : Nat × String) :
    ∀ (l : List (Nat × String)) (cs : List (Nat × String)),
      (∀ q ∈ l, q.1 ≠ c.1) →
      l.foldl (fun cs p =>
          if fails p.1 then cs.eraseP (fun q => q.1 == p.1) else cs) (c :: cs) =
        c :: l.foldl (fun cs p =>
          if fails p.1 then cs.eraseP (fun q => q.1 == p.1) else cs) cs
  | [], _, _ => rfl
  | q :: rest, cs, h => by
    have hne : c.1 ≠ q.1 := fun hcq => (h q (List.mem_cons_self q rest)) hcq.symm
    have hrest : ∀ x ∈ rest, x.1 ≠ c.1 := fun x hx => h x (List.mem_cons_of_mem q hx)
    by_cases hf : fails q.1
    · simp only [List.foldl_cons, if_pos hf]
      rw [List.eraseP_cons_of_neg (by simpa using hne)]
      exact foldl_eraseP_cons_skip fails c rest _ hrest
    · simp only [List.foldl_cons, if_neg hf]
      exact foldl_eraseP_cons_skip fails c rest cs hrest

/-- Iterating the `connections` snapshot while erasing the failing entries
from itself leaves exactly the non-failing entries (keys pairwise
distinct). -/
theorem foldl_eraseP_self (fails : Nat → Bool) :
    ∀ (l : List (Nat × String)), (l.map Prod.fst).Nodup →
      l.foldl (fun cs p =>
          if fails p.1 then cs.eraseP (fun q => q.1 == p.1) else cs) l =
        l.filter (fun p => !fails p.1)
  | [], _ => rfl
  | p :: rest, h => by
    rw [List.map_cons, List.nodup_cons] at h
    have hkeys : ∀ q ∈ rest, q.1 ≠ p.1 := by
      intro q hq hqp
      exact h.1 (hqp ▸ List.mem_map_of_mem Prod.fst hq)
    by_cases hf : fails p.1
    · simp only [List.foldl_cons, if_pos hf]
      rw [List.eraseP_cons_of_pos (by simp)]
      rw [foldl_eraseP_self fails rest h.2]
      simp [List.filter_cons, hf]
    · simp only [List.foldl_cons, if_neg hf]
      rw [foldl_eraseP_cons_skip fails p rest rest hkeys]
      rw [foldl_eraseP_self fails rest h.2]
      simp [List.filter_cons, hf]

/-- Iterating a snapshot while erasing the keys of its failing entries from
a duplicate-free cancel-handle list removes exactly the handles that belong
to a failing snapshot entry. -/
theorem foldl_erase_cancel (fails : Nat → Bool) :
    ∀ (l : List (Nat × String)) (fs : List Nat), fs.Nodup →
      l.foldl (fun fs p => if fails p.1 then fs.erase p.1 else fs) fs =
        fs.filter (fun c => !(fails c && l.any (fun p => p.1 == c)))
  | [], fs, _ => by simp
  | p :: rest, fs, h => by
    by_cases hf : fails p.1
    · simp only [List.foldl_cons, if_pos hf]
      rw [foldl_erase_cancel fails rest (fs.erase p.1) (h.erase p.1)]
      rw [h.erase_eq_filter p.1]
      rw [List.filter_filter]
      apply List.filter_congr
      intro c _
      by_cases hcp : c = p.1
      · simp [hcp, hf]
      · have h1 : (c == p.1) = false := by simp [hcp]
        have h2 : (p.1 == c) = false := by simp [Ne.symm hcp]
        simp [h1, h2, hcp]
    · simp only [List.foldl_cons, if_neg hf]
      rw [foldl_erase_cancel fails rest fs h]
      apply List.filter_congr
      intro c _
      by_cases hcp : c = p.1
      · simp [hcp, hf]
      · have h2 : (p.1 == c) = false := by simp [Ne.symm hcp]
        simp [h2]

/-! ## Claim theorems -/

/-- C1: the spec requires that after `revoke` is called on a token,
`validate` fails (validity must consult the RevocationSet). Evaluating the
code at the failing input: `Logout` records the freshly issued token in the
blacklist, yet validation — which never consults the blacklist — still
returns the embedded identity well before the TTL has elapsed. -/
theorem revoked_token_still_validates :
    (Logout authHandler0 1 aliceToken).tokenBlacklist.any
        (fun e => e.1 == aliceToken) = true ∧
    authValidateToken (Logout authHandler0 1 aliceToken) 2 aliceToken =
      some "alice" ∧
    2 < aliceToken.claims.exp := by
  decide

/-- C5: the spec requires every possible first message to terminate the
handshake normally in `Closed` (after a best-effort notice). Evaluating
the handshake at a first message of type `authorization` whose payload is
the JSON number 123: the unchecked type assertion
`authMessage.Payload.(string)` panics instead. -/
theorem authorization_nonstring_payload_panics :
    handleWSFirstMessage (fun _ => some "alice")
        (.msg { type := "authorization", payload := .int 123, sender := "" }) =
      HandshakeOutcome.panicked := by
  decide

/-- C2 counterexample: with two connections both owned by "alice",
`HandleLogout` (the retire-by-identity path) retires only one of them —
a connection mapped to "alice" remains in the registry, contradicting the
claim that none remains. -/
theorem handleLogout_leaves_other_connection :
    logoutReg0.connections.countP (fun p => p.2 == "alice") = 2 ∧
    (HandleLogout logoutReg0 "alice").1.connections.countP
        (fun p => p.2 == "alice") = 1 := by
  decide

/-- C3 counterexample: the stored document starts at version 1; the client
edits it (same version it read, new title); the edit succeeds with 200, yet
the stored version is still 1, not 2 — the claim that every successful edit
increments the stored version by exactly 1 fails. -/
theorem editGame_stored_version_not_incremented :
    ((storedBody editColl0 1).bind (fun d => docField d "version")) =
      some (.int 1) ∧
    (EditGame editColl0 "d1" editGame0).2.2 = 200 ∧
    ((storedBody (EditGame editColl0 "d1" editGame0).1 1).bind
        (fun d => docField d "version")) = some (.int 1) := by
  decide

/-- C4 counterexample: a connection authenticated as "alice" forwards a
chat message whose client-supplied sender field says "mallory"; the
delivered message still says "mallory", contradicting the claim that the
server overwrites sender with the authenticated identity. -/
theorem forwarded_message_keeps_spoofed_sender :
    ((processMessage senderReg0 "alice" spoofMsg0 (fun _ => false)).2.map
        (fun d => d.2.sender)) = ["mallory"] ∧
    spoofMsg0.sender ≠ "alice" ∧ spoofMsg0.type ≠ "logout" := by
  decide

/-- C6 counterexample: the state in which `HandleWS` has run its first
critical section of admission (connection registered) but not its second
(cancel handle bound) is observable by any reader taking the mutex, and in
it connection 1 is present in `connections` but absent from `cancelFuncs` —
admission does not appear atomic across the two maps. -/
theorem admit_midpoint_observed_inconsistent :
    applyAction emptyRegistry (RegAction.insertConn 1 "alice") ∈
      statesAfter emptyRegistry (admitSeq 1 "alice") ∧
    bothOrNeither (applyAction emptyRegistry (RegAction.insertConn 1 "alice")) =
      false := by
  decide

/-- C7: for every collection state, uniqueness filter, and document — if at
least one existing document matches the filter, insert fails with Conflict
and the collection is unchanged; if none matches, insert succeeds with
Created and returns a freshly assigned identifier (one no existing entry
carries, given the well-formedness of the fresh-identifier counter). -/
theorem insertDocument_uniqueness_spec (coll : Collection) (f : Filter)
    (d : Document) (hwf : ∀ e ∈ coll.docs, e.1 < coll.nextId) :
    (coll.docs.any (matchesFilter f) = true →
      InsertDocument coll (some f) d = (coll, none, 409)) ∧
    (coll.docs.any (matchesFilter f) = false →
      InsertDocument coll (some f) d =
        ({ docs := coll.docs ++ [(coll.nextId, d)], nextId := coll.nextId + 1 },
         some coll.nextId, 201) ∧
      ∀ e ∈ coll.docs, e.1 ≠ coll.nextId) := by
  constructor
  · intro h
    simp [InsertDocument, h]
  · intro h
    refine ⟨by simp [InsertDocument, insertRaw, h], ?_⟩
    intro e he
    exact Nat.ne_of_lt (hwf e he)

/-- C7 witness: on a concrete users collection, inserting "bob" with a
uniqueness filter on "bob" conflicts with no write, while inserting "carol"
with a filter on "carol" creates with the fresh identifier. -/
theorem insertDocument_uniqueness_spec_witness :
    InsertDocument userColl0 (some [Cond.fieldEq "username" (.str "bob")])
        [("username", .str "bob")] = (userColl0, none, 409) ∧
    (InsertDocument userColl0 (some [Cond.fieldEq "username" (.str "carol")])
        [("username", .str "carol")] =
      ({ docs := userColl0.docs ++ [(userColl0.nextId, [("username", .str "carol")])],
         nextId := userColl0.nextId + 1 }, some userColl0.nextId, 201) ∧
      ∀ e ∈ userColl0.docs, e.1 ≠ userColl0.nextId) :=
  ⟨(insertDocument_uniqueness_spec userColl0
      [Cond.fieldEq "username" (.str "bob")] [("username", .str "bob")]
      (by decide)).1 (by decide),
   (insertDocument_uniqueness_spec userColl0
      [Cond.fieldEq "username" (.str "carol")] [("username", .str "carol")]
      (by decide)).2 (by decide)⟩

/-- C8: `DeleteDocument` and `EditDocument` on a filter matching zero
documents (and `EditDocument` on a match with identical content) fail with
the 400-mapped NotFound-style error and leave the collection unchanged —
never a silent success; on a filter matching exactly one document they
succeed with status 200 (for the edit, when the new body differs, which is
the case the same claim classifies as a modification). -/
theorem deleteOne_replaceOne_no_silent_success (coll : Collection)
    (f : Filter) (nd : Document) :
    (coll.docs.countP (matchesFilter f) = 0 →
      DeleteDocument coll f = (coll, 400) ∧
      EditDocument coll f nd = (coll, 400)) ∧
    (coll.docs.countP (matchesFilter f) = 1 →
      (DeleteDocument coll f).2 = 200 ∧
      ∀ e, coll.docs.find? (matchesFilter f) = some e →
        (e.2 = nd → EditDocument coll f nd = (coll, 400)) ∧
        (e.2 ≠ nd → (EditDocument coll f nd).2 = 200)) := by
  constructor
  · intro h0
    have hnone : coll.docs.find? (matchesFilter f) = none :=
      List.find?_eq_none.mpr (fun a ha => by
        simpa using List.countP_eq_zero.mp h0 a ha)
    exact ⟨by simp [DeleteDocument, hnone], by simp [EditDocument, hnone]⟩
  · intro h1
    have hpos : 0 < coll.docs.countP (matchesFilter f) := by omega
    have hsome : (coll.docs.find? (matchesFilter f)).isSome :=
      List.find?_isSome.mpr (List.countP_pos_iff.mp hpos)
    obtain ⟨e, he⟩ := Option.isSome_iff_exists.mp hsome
    refine ⟨by simp [DeleteDocument, he], ?_⟩
    intro e2 he2
    constructor
    · intro heq
      simp [EditDocument, he2, heq]
    · intro hne
      have hbeq : (e2.2 == nd) = false := by simpa using hne
      simp [EditDocument, he2, hbeq]

/-- C8 witness: on a concrete users collection, delete/edit with a filter
matching nobody fail with 400 and no change; with a filter matching exactly
the stored "bob", delete succeeds with 200, an identical-body edit fails
with 400, and a different-body edit succeeds with 200. -/
theorem deleteOne_replaceOne_no_silent_success_witness :
    (DeleteDocument userColl0 [Cond.fieldEq "username" (.str "nobody")] =
        (userColl0, 400) ∧
      EditDocument userColl0 [Cond.fieldEq "username" (.str "nobody")]
        [("username", .str "nobody")] = (userColl0, 400)) ∧
    (DeleteDocument userColl0 [Cond.fieldEq "username" (.str "bob")]).2 = 200 ∧
    EditDocument userColl0 [Cond.fieldEq "username" (.str "bob")]
      [("username", .str "bob")] = (userColl0, 400) ∧
    (EditDocument userColl0 [Cond.fieldEq "username" (.str "bob")]
      [("username", .str "bobby")]).2 = 200 :=
  ⟨(deleteOne_replaceOne_no_silent_success userColl0
      [Cond.fieldEq "username" (.str "nobody")] [("username", .str "nobody")]).1
      (by decide),
   ((deleteOne_replaceOne_no_silent_success userColl0
      [Cond.fieldEq "username" (.str "bob")] [("username", .str "bob")]).2
      (by decide)).1,
   (((deleteOne_replaceOne_no_silent_success userColl0
      [Cond.fieldEq "username" (.str "bob")] [("username", .str "bob")]).2
      (by decide)).2 (0, [("username", .str "bob")]) (by decide)).1 (by decide),
   (((deleteOne_replaceOne_no_silent_success userColl0
      [Cond.fieldEq "username" (.str "bob")] [("username", .str "bobby")]).2
      (by decide)).2 (0, [("username", .str "bob")]) (by decide)).2 (by decide)⟩

/-- C9: broadcast attempts a write to every registered connection
regardless of individual failures (each attempt carrying the message), and
afterwards exactly the connections whose writes failed have been removed
from both registry maps (their cancel handles being invoked as the
`cancelFuncs` entries are removed); the others remain registered. -/
theorem broadcastMessage_attempts_all_evicts_failed (reg : Registry)
    (msg : MessageData) (fails : Nat → Bool)
    (hconn : (reg.connections.map Prod.fst).Nodup)
    (hcf : reg.cancelFuncs.Nodup) :
    (broadcastMessage reg msg fails).2 =
      reg.connections.map (fun p => (p.1, msg)) ∧
    (broadcastMessage reg msg fails).1.connections =
      reg.connections.filter (fun p => !fails p.1) ∧
    (broadcastMessage reg msg fails).1.cancelFuncs =
      reg.cancelFuncs.filter
        (fun c => !(fails c && reg.connections.any (fun p => p.1 == c))) := by
  refine ⟨broadcastLoop_attempts msg fails reg.connections reg, ?_, ?_⟩
  · rw [broadcastMessage, broadcastLoop_connections msg fails reg.connections reg]
    exact foldl_eraseP_self fails reg.connections hconn
  · rw [broadcastMessage, broadcastLoop_cancelFuncs msg fails reg.connections reg]
    exact foldl_erase_cancel fails reg.connections reg.cancelFuncs hcf

/-- C9 witness: broadcasting to three registered connections where the
write to connection 2 fails — all three are attempted and exactly
connection 2 leaves both maps. -/
theorem broadcastMessage_attempts_all_evicts_failed_witness :
    (broadcastMessage bcastReg0 spoofMsg0 (fun c => c == 2)).2 =
      bcastReg0.connections.map (fun p => (p.1, spoofMsg0)) ∧
    (broadcastMessage bcastReg0 spoofMsg0 (fun c => c == 2)).1.connections =
      bcastReg0.connections.filter (fun p => !(p.1 == 2)) ∧
    (broadcastMessage bcastReg0 spoofMsg0 (fun c => c == 2)).1.cancelFuncs =
      bcastReg0.cancelFuncs.filter
        (fun c => !((c == 2) && bcastReg0.connections.any (fun p => p.1 == c))) :=
  broadcastMessage_attempts_all_evicts_failed bcastReg0 spoofMsg0
    (fun c => c == 2) (by decide) (by decide)

/-- C10: insert with no uniqueness filter (nil conditions) never returns
Conflict — the existence pre-check is skipped, the write is always
attempted, and the document is appended even if an identical body already
exists in the collection. -/
theorem insertDocument_nil_conditions_never_conflict (coll : Collection)
    (d : Document) :
    (InsertDocument coll none d).2.2 = 201 ∧
    (InsertDocument coll none d).1.docs = coll.docs ++ [(coll.nextId, d)] ∧
    (InsertDocument coll none d).2.1 = some coll.nextId :=
  ⟨rfl, rfl, rfl⟩

/-- C2 amended: `HandleLogout` retires exactly the first connection found
owned by the identity: that connection alone receives the close notice, the
identity's connection count drops by exactly one, that connection's cancel
handle is removed, and every other connection stays registered. -/
theorem handleLogout_retires_only_first_match (reg : Registry)
    (username : String) (c : Nat) (u : String)
    (hnd : (reg.connections.map Prod.fst).Nodup)
    (hfind : reg.connections.find? (fun p => p.2 == username) = some (c, u)) :
    (HandleLogout reg username).2 = [c] ∧
    (HandleLogout reg username).1.connections.countP
        (fun p => p.2 == username) + 1 =
      reg.connections.countP (fun p => p.2 == username) ∧
    (HandleLogout reg username).1.cancelFuncs = reg.cancelFuncs.erase c ∧
    ∀ p ∈ reg.connections, p.1 ≠ c →
      p ∈ (HandleLogout reg username).1.connections := by
  have hmem : (c, u) ∈ reg.connections := List.mem_of_find?_eq_some hfind
  have hpred := List.find?_some hfind
  simp only [HandleLogout, hfind, evictConn]
  refine ⟨by trivial, ?_, by trivial, ?_⟩
  · exact countP_eraseP_key (fun p => p.2 == username) reg.connections c u
      hnd hmem hpred
  · intro p hp hpc
    rw [eraseP_key_eq_filter c reg.connections hnd]
    exact List.mem_filter.mpr ⟨hp, by simpa using hpc⟩

/-- C2 witness: on the two-device registry for "alice", `HandleLogout`
notifies and retires connection 1 only, and connection 2 stays. -/
theorem handleLogout_retires_only_first_match_witness :
    (HandleLogout logoutReg0 "alice").2 = [1] ∧
    (HandleLogout logoutReg0 "alice").1.connections.countP
        (fun p => p.2 == "alice") + 1 =
      logoutReg0.connections.countP (fun p => p.2 == "alice") ∧
    (HandleLogout logoutReg0 "alice").1.cancelFuncs =
      logoutReg0.cancelFuncs.erase 1 ∧
    ∀ p ∈ logoutReg0.connections, p.1 ≠ 1 →
      p ∈ (HandleLogout logoutReg0 "alice").1.connections :=
  handleLogout_retires_only_first_match logoutReg0 "alice" 1 "alice"
    (by decide) (by decide)

/-- C3 amended: on a successful edit the store holds exactly the
client-supplied replacement body under the matched identifier — so the
stored version is the version the client sent, not necessarily the
previous stored version plus one — while the version returned in the HTTP
response is the client-sent version plus one. -/
theorem editGame_stores_client_body (coll : Collection) (now : String)
    (g : Game) (e : Nat × Document)
    (hfind : coll.docs.find? (matchesFilter [Cond.idEq g.id]) = some e)
    (hdiff : e.2 ≠ gameToDoc g) :
    (EditGame coll now g).2.2 = 200 ∧
    storedBody (EditGame coll now g).1 g.id = some (gameToDoc g) ∧
    docField (gameToDoc g) "version" = some (.int g.version) ∧
    (EditGame coll now g).2.1 =
      some { g with date := now, version := g.version + 1 } := by
  have hbeq : (e.2 == gameToDoc g) = false := by simpa using hdiff
  have hED : EditDocument coll [Cond.idEq g.id] (gameToDoc g) =
      ({ coll with docs := replaceFirst [Cond.idEq g.id] (gameToDoc g) coll.docs },
       200) := by
    simp [EditDocument, hfind, hbeq]
  have hEG : EditGame coll now g =
      ({ coll with docs := replaceFirst [Cond.idEq g.id] (gameToDoc g) coll.docs },
       some { g with date := now, version := g.version + 1 }, 200) := by
    simp [EditGame, hED]
  have hfind2 := find?_replaceFirst_idEq g.id (gameToDoc g) coll.docs e hfind
  rw [hEG]
  refine ⟨rfl, ?_, rfl, rfl⟩
  simp [storedBody, hfind2]

/-- C3 witness: the concrete edit of the version-1 document stores the
client body (version 1) and answers with version 2. -/
theorem editGame_stores_client_body_witness :
    (EditGame editColl0 "d1" editGame0).2.2 = 200 ∧
    storedBody (EditGame editColl0 "d1" editGame0).1 editGame0.id =
      some (gameToDoc editGame0) ∧
    docField (gameToDoc editGame0) "version" = some (.int editGame0.version) ∧
    (EditGame editColl0 "d1" editGame0).2.1 =
      some { editGame0 with date := "d1", version := editGame0.version + 1 } :=
  editGame_stores_client_body editColl0 "d1" editGame0
    (1, gameToDoc { id := 1, title := "a", date := "d0", version := 1 })
    (by decide) (by decide)

/-- C4 amended: an inbound non-logout message is forwarded verbatim —
every delivered copy is byte-for-byte the inbound message, so the
client-supplied sender field is preserved, not replaced by the
authenticated identity. -/
theorem processMessage_forwards_verbatim (reg : Registry) (username : String)
    (msg : MessageData) (fails : Nat → Bool) (h : msg.type ≠ "logout") :
    ∀ d ∈ (processMessage reg username msg fails).2, d.2 = msg := by
  intro d hd
  have hb : (msg.type == "logout") = false := by simpa using h
  simp [processMessage, hb] at hd
  rw [broadcastMessage, broadcastLoop_attempts msg fails reg.connections reg] at hd
  obtain ⟨q, hq, rfl⟩ := List.mem_map.mp hd
  rfl

/-- C4 witness: the spoofed chat message delivered to "alice"'s connection
is the inbound message itself. -/
theorem processMessage_forwards_verbatim_witness :
    ((1 : Nat), spoofMsg0) ∈
      (processMessage senderReg0 "alice" spoofMsg0 (fun _ => false)).2 ∧
    ((1 : Nat), spoofMsg0).2 = spoofMsg0 :=
  ⟨by decide,
   processMessage_forwards_verbatim senderReg0 "alice" spoofMsg0
     (fun _ => false) (by decide) (1, spoofMsg0) (by decide)⟩

/-- Unfolding of the cross-map consistency predicate. -/
theorem bothOrNeither_iff (reg : Registry) :
    bothOrNeither reg = true ↔
      ((∀ p ∈ reg.connections, p.1 ∈ reg.cancelFuncs) ∧
       (∀ c ∈ reg.cancelFuncs, ∃ p ∈ reg.connections, p.1 = c)) := by
  simp [bothOrNeither, List.all_eq_true, List.any_eq_true]

/-- Membership in a Go-map-style insert into the cancel-handle set. -/
theorem mem_mapInsertCancel (l : List Nat) (c x : Nat) :
    x ∈ mapInsertCancel l c ↔ x ∈ l ∨ x = c := by
  unfold mapInsertCancel
  by_cases h : l.any (fun y => y == c)
  · have hc : c ∈ l := by
      obtain ⟨y, hy, hyc⟩ := List.any_eq_true.mp h
      exact (beq_iff_eq.mp hyc) ▸ hy
    simp only [if_pos h]
    constructor
    · exact Or.inl
    · rintro (hx | rfl)
      · exact hx
      · exact hc
  · simp only [if_neg h, List.mem_cons]
    exact or_comm

/-- C6 amended: retirement is atomic across both maps — it preserves the
cross-map consistency invariant in one critical section — and a fully
completed admission (both critical sections) restores it; the violation is
confined to the window between admission's two critical sections. -/
theorem registry_retire_atomic_admit_split (reg : Registry) (c : Nat)
    (id : String)
    (hconn : (reg.connections.map Prod.fst).Nodup)
    (hcf : reg.cancelFuncs.Nodup)
    (hinv : bothOrNeither reg = true) :
    bothOrNeither (applyAction reg (RegAction.retire c)) = true ∧
    bothOrNeither (applyAction (applyAction reg (RegAction.insertConn c id))
        (RegAction.insertCancel c)) = true := by
  obtain ⟨h1, h2⟩ := (bothOrNeither_iff reg).mp hinv
  constructor
  · apply (bothOrNeither_iff _).mpr
    constructor
    · intro p hp
      simp only [applyAction, evictConn] at hp ⊢
      rw [eraseP_key_eq_filter c reg.connections hconn] at hp
      obtain ⟨hpl, hpc⟩ := List.mem_filter.mp hp
      rw [hcf.erase_eq_filter c]
      exact List.mem_filter.mpr ⟨h1 p hpl, hpc⟩
    · intro x hx
      simp only [applyAction, evictConn] at hx ⊢
      rw [hcf.erase_eq_filter c] at hx
      obtain ⟨hxl, hxc⟩ := List.mem_filter.mp hx
      obtain ⟨p, hpl, hpc⟩ := h2 x hxl
      refine ⟨p, ?_, hpc⟩
      rw [eraseP_key_eq_filter c reg.connections hconn]
      exact List.mem_filter.mpr ⟨hpl, by rw [hpc]; exact hxc⟩
  · apply (bothOrNeither_iff _).mpr
    simp only [applyAction]
    constructor
    · intro p hp
      rw [mem_mapInsertCancel]
      unfold mapInsertConn at hp
      by_cases hany : reg.connections.any (fun q => q.1 == c)
      · rw [if_pos hany] at hp
        obtain ⟨q, hq, rfl⟩ := List.mem_map.mp hp
        by_cases hqc : q.1 = c
        · right
          simp [hqc]
        · left
          have : (q.1 == c) = false := by simpa using hqc
          simpa [this] using h1 q hq
      · rw [if_neg hany] at hp
        rcases List.mem_cons.mp hp with rfl | hp
        · exact Or.inr rfl
        · exact Or.inl (h1 p hp)
    · intro x hx
      rw [mem_mapInsertCancel] at hx
      unfold mapInsertConn
      by_cases hany : reg.connections.any (fun q => q.1 == c)
      · rw [if_pos hany]
        rcases hx with hx | hxc
        · obtain ⟨p, hpl, hpc⟩ := h2 x hx
          by_cases hpc2 : p.1 = c
          · refine ⟨(c, id), List.mem_map.mpr ⟨p, hpl, by simp [hpc2]⟩, ?_⟩
            rw [← hpc, hpc2]
          · have hfalse : (p.1 == c) = false := by simpa using hpc2
            exact ⟨p, List.mem_map.mpr ⟨p, hpl, by simp [hfalse]⟩, hpc⟩
        · obtain ⟨q, hq, hqc⟩ := List.any_eq_true.mp hany
          refine ⟨(c, id), List.mem_map.mpr ⟨q, hq, by simp [hqc]⟩, hxc.symm⟩
      · rw [if_neg hany]
        rcases hx with hx | hxc
        · obtain ⟨p, hpl, hpc⟩ := h2 x hx
          exact ⟨p, List.mem_cons_of_mem _ hpl, hpc⟩
        · exact ⟨(c, id), List.mem_cons_self _ _, hxc.symm⟩

/-- C6 witness: on a consistent one-connection registry, retiring
connection 1 and fully admitting connection 2 each leave the invariant
intact. -/
theorem registry_retire_atomic_admit_split_witness :
    bothOrNeither (applyAction senderReg0 (RegAction.retire 1)) = true ∧
    bothOrNeither (applyAction (applyAction senderReg0
        (RegAction.insertConn 1 "alice")) (RegAction.insertCancel 1)) = true :=
  registry_retire_atomic_admit_split senderReg0 1 "alice"
    (by decide) (by decide) (by decide)

end GoRestApi
